import Mathlib

/-!
Shallow embedding of the JOS kernel monitor (`kern/monitor.c`): the command
tokenizer and dispatcher (`runcmd`), the display-color command
(`mon_setcolor`), the page-table commands (`mon_showmappings` normalization,
`mon_setperm`), the raw memory dump (`mon_showmem`) and the execution-control
commands (`mon_continue`, `mon_stepi`).  Machine integers are modelled as
`Nat`/`Int` with explicit reductions modulo `2^32` where the C code stores
into 32-bit cells.  External collaborators (the page-table walk primitive,
the string-to-long parser, the rounding macros, the kernel base constant)
are modelled from the specification and marked as such.
-/

namespace Monitor

/-- Page size, 4096 bytes (`PGSIZE`). -/
def PGSIZE : Nat := 4096

/-- Modelled from the spec: the kernel's fixed physical-to-virtual offset
(`KERNBASE` from `inc/memlayout.h`, not under `src/`); the classic JOS value
`0xF0000000`.  The claims depend only on it being a fixed offset. -/
def KERNBASE : Nat := 0xF0000000

/-- Modelled from the spec: the page-table "present" bit (`PTE_P`). -/
def PTE_P : Nat := 0x1

/-- Modelled from the spec: the page-table "writable" bit (`PTE_W`). -/
def PTE_W : Nat := 0x2

/-- Modelled from the spec: the page-table "user-accessible" bit (`PTE_U`). -/
def PTE_U : Nat := 0x4

/-- Maximum argument-slot count of the tokenizer (`MAXARGS`). -/
def MAXARGS : Nat := 16

/-- All-ones 32-bit mask; conversion of the C `~perm` (for `perm < 2^32`,
the uint32 pattern of `~perm` is `mask32 ^^^ perm`). -/
def mask32 : Nat := 0xFFFFFFFF

/-- The uint32 bit pattern of an integer value (C conversion to a 32-bit
unsigned integer or pointer). -/
def toU32 (i : Int) : Nat := (i % 4294967296).toNat

/-- The int32 value of an integer (C conversion to 32-bit `int`,
two's complement). -/
def toI32 (i : Int) : Int :=
  let u := i % 4294967296
  if u ≥ 2147483648 then u - 4294967296 else u

/-- Hexadecimal/decimal digit value of a character, valid below `base`. -/
def digitVal (base : Nat) (c : Char) : Option Nat :=
  let v : Option Nat :=
    if '0' ≤ c ∧ c ≤ '9' then some (c.toNat - 48)
    else if 'a' ≤ c ∧ c ≤ 'f' then some (c.toNat - 87)
    else if 'A' ≤ c ∧ c ≤ 'F' then some (c.toNat - 55)
    else none
  match v with
  | some d => if d < base then some d else none
  | none => none

/-- Accumulate digits of the given base, stopping at the first non-digit. -/
def parseDigits (base : Nat) : List Char → Nat → Nat
  | [], acc => acc
  | c :: cs, acc =>
    match digitVal base c with
    | some d => parseDigits base cs (acc * base + d)
    | none => acc

/-- Magnitude part of `strtol`: a `0x`/`0X` prefix selects base 16,
otherwise base 10. -/
def strtolMag (cs : List Char) : Nat :=
  match cs with
  | '0' :: 'x' :: rest => parseDigits 16 rest 0
  | '0' :: 'X' :: rest => parseDigits 16 rest 0
  | _ => parseDigits 10 cs 0

/-- Modelled from the spec: the generic integer-literal parser (`strtol`
from the C library of this repository, not under `src/`): "decimal, or a
hex prefix convention", with an optional leading minus sign. -/
def strtol (s : String) : Int :=
  match s.toList with
  | '-' :: rest => - (strtolMag rest : Int)
  | cs => (strtolMag cs : Int)

/-! ## Tokenizer and dispatcher (`runcmd`) -/

/-- The whitespace set of the tokenizer (`WHITESPACE "\t\r\n "`). -/
def isWS (c : Char) : Bool :=
  c == '\t' || c == '\r' || c == '\n' || c == ' '

/-- Worker of the tokenizer: scan the buffer left to right, `cur` holding
the (reversed) non-whitespace run being accumulated.  Whitespace runs end
the current token; non-whitespace extends it. -/
def tokenizeGo : List Char → List Char → List (List Char)
  | [], cur => if cur = [] then [] else [cur.reverse]
  | c :: cs, cur =>
    if isWS c then
      if cur = [] then tokenizeGo cs [] else cur.reverse :: tokenizeGo cs []
    else tokenizeGo cs (c :: cur)

/-- Split a line into whitespace-separated tokens, as the parse loop of
`runcmd` does in place on the command buffer. -/
def tokenize (cs : List Char) : List (List Char) := tokenizeGo cs []

/-- The registered command names, in registry order (`commands[]`). -/
def commandNames : List String :=
  ["help", "kerninfo", "backtrace", "setcolor", "showmappings",
   "setperm", "showmem", "continue", "c", "stepi", "si"]

/-- Outcome of `runcmd` on one input line: the tokenizer hit the argument
bound, the line was empty, the first token missed the registry, or a
registered handler was invoked with the parsed argument vector. -/
inductive Outcome where
  | tooMany
  | noop
  | unknown (name : String)
  | invoke (name : String) (argv : List String)
deriving DecidableEq

/-- The dispatch logic of `runcmd`: tokenize; reject lines that reach
`MAXARGS-1` stored arguments ("Too many arguments"); an empty line is a
no-op; otherwise look the first token up in the registry by exact string
comparison (`strcmp`), invoking on a hit and reporting "Unknown command"
on a miss. -/
def runcmd (buf : String) : Outcome :=
  let toks := tokenize buf.toList
  if toks.length > MAXARGS - 1 then .tooMany
  else
    match toks with
    | [] => .noop
    | t :: _ =>
      let name := String.mk t
      if commandNames.contains name then .invoke name (toks.map String.mk)
      else .unknown name

/-- Status `runcmd` returns to the REPL loop on the paths it decides
itself (`0` on too-many-arguments, empty line, and unknown command); an
invoked handler's status is its own. -/
def runcmdReturn : Outcome → Option Int
  | .invoke _ _ => none
  | _ => some 0

/-- The REPL loop of `monitor` breaks exactly when `runcmd` returns a
negative status. -/
def loopTerminates (status : Int) : Bool := status < 0

/-! ## Page tables and `mon_setperm` -/

/-- Modelled from the spec: the external page-table walk primitive
"(address, create-flag) → optional mutable entry reference", consumed in
non-creating mode.  A page table maps each virtual page number to an
optional 32-bit entry; `none` is a null entry reference. -/
abbrev PageTable := Nat → Option Nat

/-- Non-creating walk: the entry reference for the page containing the
given address (`pgdir_walk(kern_pgdir, (void *)addr, 0)`; the pointer cast
truncates the `long` to 32 bits). -/
def walk (pt : PageTable) (addr : Int) : Option Nat :=
  pt (toU32 addr / PGSIZE)

/-- Store a value through the entry reference for the page containing the
given address; the entry is a 32-bit cell. -/
def writePte (pt : PageTable) (addr : Int) (v : Nat) : PageTable :=
  fun pg => if pg = toU32 addr / PGSIZE then some (v % 4294967296) else pt pg

/-- The three permission-bit flags of an entry as printed by `mon_setperm`
and `mon_showmappings`: `(bool)(*p & PTE_P)` etc. -/
structure PermBits where
  p : Bool
  w : Bool
  u : Bool
deriving DecidableEq

/-- The printed permission-bit view of an entry value. -/
def bitsOf (pte : Nat) : PermBits :=
  ⟨pte &&& PTE_P != 0, pte &&& PTE_W != 0, pte &&& PTE_U != 0⟩

/-- The permission bit selected by the first character of `argv[3]`
(`argv[3][0] == 'P' / 'W' / 'U'`); `none` when no branch assigns `perm`
and the variable stays uninitialized. -/
def letterPerm (s : String) : Option Nat :=
  match s.toList with
  | 'P' :: _ => some PTE_P
  | 'W' :: _ => some PTE_W
  | 'U' :: _ => some PTE_U
  | _ => none

/-- Result of `mon_setperm`: a usage message (wrong argument count) or the
pair of printed before/after permission reports together with the
resulting page table. -/
inductive SetpermResult where
  | usage (pt : PageTable)
  | done (before after : PermBits) (pt : PageTable)

/-- The page table after a `mon_setperm` invocation. -/
def SetpermResult.pt : SetpermResult → PageTable
  | .usage pt => pt
  | .done _ _ pt => pt

/-- The printed before/after permission reports, when any. -/
def SetpermResult.reports : SetpermResult → Option (PermBits × PermBits)
  | .usage _ => none
  | .done b a _ => some (b, a)

/-- `mon_setperm`: with other than four arguments print usage; otherwise
walk to the entry for `strtol(argv[1])` and print its bits — through the
returned reference with no null check, so a missing mapping dereferences
the null reference (`none` models that undefined behavior).  `change` ORs
the uint32 pattern of `strtol(argv[3])` into the entry; otherwise the
first character of `argv[3]` selects a bit, which `clear` clears
(`*p &= ~perm`) and `set` sets (`*p |= perm`); with no assigning branch the
later use of the uninitialized `perm` is again undefined behavior, and an
operation word other than the three leaves the entry untouched.  The bits
are printed again after the mutation. -/
def mon_setperm (argv : List String) (pt : PageTable) : Option SetpermResult :=
  match argv with
  | [_, a1, a2, a3] =>
    let addr := strtol a1
    match walk pt addr with
    | none => none
    | some pte =>
      let before := bitsOf pte
      if a2 = "change" then
        let pte2 := pte ||| toU32 (strtol a3)
        some (.done before (bitsOf pte2) (writePte pt addr pte2))
      else
        match letterPerm a3 with
        | some perm =>
          if a2 = "clear" then
            let pte2 := pte &&& (mask32 ^^^ perm)
            some (.done before (bitsOf pte2) (writePte pt addr pte2))
          else if a2 = "set" then
            let pte2 := pte ||| perm
            some (.done before (bitsOf pte2) (writePte pt addr pte2))
          else some (.done before before pt)
        | none =>
          if a2 = "clear" ∨ a2 = "set" then none
          else some (.done before before pt)
  | _ => some (.usage pt)

/-! ## `mon_setcolor` -/

/-- Console output of `mon_setcolor`: the usage line or the
"Color set to %x" report. -/
inductive SetcolorOut where
  | usage
  | setTo (c : Nat)
deriving DecidableEq

/-- `mon_setcolor`: with exactly two arguments, store
`strtol(argv[1]) & ~0x11` into the global `COLOR_` (a 32-bit cell) and
report it; otherwise print usage and leave the color unchanged. -/
def mon_setcolor (argv : List String) (color : Nat) : SetcolorOut × Nat :=
  match argv with
  | [_, s] =>
    let c := toU32 (strtol s) &&& 0xFFFFFFEE
    (.setTo c, c)
  | _ => (.usage, color)

/-! ## `mon_showmem` -/

/-- Modelled from the spec: `PTE_ADDR` (from `inc/mmu.h`, not under
`src/`) extracts the backing physical frame address from an entry —
page-aligned, low 12 flag bits cleared — after truncating to 32 bits. -/
def PTE_ADDR (a : Int) : Nat := toU32 a / PGSIZE * PGSIZE

/-- Modelled from the spec: `KADDR` (from `kern/pmap.h`, not under `src/`)
maps a physical address through the kernel's fixed physical-to-virtual
offset. -/
def KADDR (pa : Nat) : Nat := pa + KERNBASE

/-- Whether the first character of a string is the given character
(`argv[1][0] == 'V'`; an empty argument reads its NUL terminator and
compares unequal). -/
def firstCharIs (s : String) (c : Char) : Bool :=
  match s.toList with
  | x :: _ => x == c
  | [] => false

/-- The dump loop of `mon_showmem` (`for (i = 0; i < n; i += 4)`), with
explicit fuel for the remaining iterations: each line carries the selector
label, the original address `addr + i`, and the word read from the 32-bit
pointer `vaddr + i`. -/
def showmemLoop (sel : String) (mem : Nat → Nat) (addr vaddr n : Int) :
    Nat → Int → List (String × Int × Nat)
  | 0, _ => []
  | fuel + 1, i =>
    if i < n then
      (sel, addr + i, mem (toU32 (vaddr + i))) ::
        showmemLoop sel mem addr vaddr n fuel (i + 4)
    else []

/-- Result of `mon_showmem`: a usage message or the printed lines. -/
inductive ShowmemResult where
  | usage
  | lines (ls : List (String × Int × Nat))
deriving DecidableEq

/-- `mon_showmem`: with other than four arguments print usage; otherwise
parse the base address, read directly from it when the selector starts
with `V`, and otherwise from `KADDR(PTE_ADDR(addr))`; dump one 4-byte word
every 4 bytes while `i < n` where `n = (int)strtol(argv[3])`.  The fuel
`(n.toNat + 3) / 4` is exactly the number of iterations of the C loop. -/
def mon_showmem (argv : List String) (mem : Nat → Nat) : ShowmemResult :=
  match argv with
  | [_, sel, aStr, nStr] =>
    let addr := strtol aStr
    let vaddr : Int := if firstCharIs sel 'V' then addr else (KADDR (PTE_ADDR addr) : Nat)
    let n := toI32 (strtol nStr)
    .lines (showmemLoop sel mem addr vaddr n ((n.toNat + 3) / 4) 0)
  | _ => .usage

/-! ## `mon_showmappings` range normalization -/

/-- Modelled from the spec: the `ROUNDDOWN` macro (from `inc/types.h`, not
under `src/`), "round begin down ... to page size". -/
def ROUNDDOWN (a n : Int) : Int := a - a % n

/-- Modelled from the spec: the `ROUNDUP` macro (from `inc/types.h`, not
under `src/`), "round ... end up to page size". -/
def ROUNDUP (a n : Int) : Int := ROUNDDOWN (a + n - 1) n

/-- The range normalization of `mon_showmappings`: clamp both parsed
addresses to `0xffffffff`, swap when `end < begin`, round `begin` down and
`end` up to the page size, and extend `end` by one page when the rounded
bounds coincide.  A single textual address is passed as both bounds. -/
def normalizeRange (a b : Int) : Int × Int :=
  let b1 := if a > 0xffffffff then 0xffffffff else a
  let e1 := if b > 0xffffffff then 0xffffffff else b
  let b2 := if e1 < b1 then e1 else b1
  let e2 := if e1 < b1 then b1 else e1
  let b3 := ROUNDDOWN b2 (PGSIZE : Int)
  let e3 := ROUNDUP e2 (PGSIZE : Int)
  (b3, if b3 = e3 then e3 + (PGSIZE : Int) else e3)

/-! ## `mon_continue` and `mon_stepi` -/

/-- Modelled from the spec: the `SavedContext` (Trapframe, from
`inc/trap.h`, not under `src/`): the flags word and, abstractly, the
remaining saved registers. -/
structure Trapframe where
  tf_eflags : Nat
  tf_rest : Nat
deriving DecidableEq

/-- Modelled from the spec: the active task (`curenv`), holding its saved
execution context `env_tf`. -/
structure Env where
  env_tf : Trapframe
deriving DecidableEq

/-- Result of `mon_continue`/`mon_stepi`: the printed lines, the active
task afterwards, whether control was handed to the scheduler's resume
primitive (`env_run`, which does not return), and the handler status. -/
structure ExecResult where
  out : List String
  env : Env
  resumed : Bool
  ret : Int
deriving DecidableEq

/-- The single-step trap flag (`0x100`) cleared from a 32-bit flags word
(`tf_eflags &= ~0x100`). -/
def clearTF (f : Nat) : Nat := f &&& (mask32 ^^^ 0x100)

/-- `mon_continue`: usage unless exactly one argument; report
"Not in backtrace" and change nothing when no context is saved; otherwise
copy the saved context into the active task, clear its single-step flag,
and resume it. -/
def mon_continue (argc : Nat) (tf : Option Trapframe) (env : Env) : ExecResult :=
  if argc ≠ 1 then ⟨["Usage: c / continue"], env, false, 0⟩
  else
    match tf with
    | none => ⟨["Not in backtrace"], env, false, 0⟩
    | some t => ⟨[], ⟨{ t with tf_eflags := clearTF t.tf_eflags }⟩, true, 0⟩

/-- `mon_stepi`: usage unless exactly one argument; report
"Not in backtrace" and change nothing when no context is saved; otherwise
copy the saved context into the active task, set its single-step flag
(`tf_eflags |= 0x100`), and resume it. -/
def mon_stepi (argc : Nat) (tf : Option Trapframe) (env : Env) : ExecResult :=
  if argc ≠ 1 then ⟨["Usage: si / stepi"], env, false, 0⟩
  else
    match tf with
    | none => ⟨["Not in backtrace"], env, false, 0⟩
    | some t => ⟨[], ⟨{ t with tf_eflags := t.tf_eflags ||| 0x100 }⟩, true, 0⟩

/-! ## Arithmetic and bitwise helper lemmas -/

lemma pow32 : (2 : Nat) ^ 32 = 4294967296 := by norm_num

lemma toU32_lt (i : Int) : toU32 i < 4294967296 := by
  unfold toU32
  have h1 : 0 ≤ i % 4294967296 := Int.emod_nonneg i (by norm_num)
  have h2 : i % 4294967296 < 4294967296 := Int.emod_lt_of_pos i (by norm_num)
  omega

lemma land_or_distrib (a b c : Nat) : (a ||| b) &&& c = (a &&& c) ||| (b &&& c) := by
  apply Nat.eq_of_testBit_eq
  intro i
  simp only [Nat.testBit_and, Nat.testBit_or]
  cases a.testBit i <;> cases b.testBit i <;> cases c.testBit i <;> rfl

lemma mask32_eq : mask32 = 2 ^ 32 - 1 := by norm_num [mask32]

lemma set_clear_cancel {pte perm : Nat} (h32 : pte < 2 ^ 32) (hp32 : perm < 2 ^ 32)
    (hdisj : pte &&& perm = 0) : (pte ||| perm) &&& (mask32 ^^^ perm) = pte := by
  apply Nat.eq_of_testBit_eq
  intro i
  have hd : (pte.testBit i && perm.testBit i) = false := by
    rw [← Nat.testBit_and, hdisj, Nat.zero_testBit]
  simp only [Nat.testBit_and, Nat.testBit_or, Nat.testBit_xor, mask32_eq,
    Nat.testBit_two_pow_sub_one]
  by_cases hi : i < 32
  · have hm : decide (i < 32) = true := by simp [hi]
    rw [hm]
    cases hpte : pte.testBit i <;> cases hperm : perm.testBit i <;> simp_all
  · have hle : (2 : Nat) ^ 32 ≤ 2 ^ i := Nat.pow_le_pow_right (by norm_num) (le_of_not_lt hi)
    have h1 : pte.testBit i = false := Nat.testBit_lt_two_pow (lt_of_lt_of_le h32 hle)
    have h2 : perm.testBit i = false := Nat.testBit_lt_two_pow (lt_of_lt_of_le hp32 hle)
    simp [hi, h1, h2]

lemma walk_writePte (pt : PageTable) (addr : Int) (v : Nat) :
    walk (writePte pt addr v) addr = some (v % 4294967296) := by
  unfold walk writePte
  simp

lemma mon_setperm_set_eq (pt : PageTable) (a1 a3 : String) (pte perm : Nat)
    (hw : walk pt (strtol a1) = some pte) (hl : letterPerm a3 = some perm) :
    mon_setperm ["setperm", a1, "set", a3] pt =
      some (.done (bitsOf pte) (bitsOf (pte ||| perm))
        (writePte pt (strtol a1) (pte ||| perm))) := by
  simp [mon_setperm, hw, hl]

lemma mon_setperm_clear_eq (pt : PageTable) (a1 a3 : String) (pte perm : Nat)
    (hw : walk pt (strtol a1) = some pte) (hl : letterPerm a3 = some perm) :
    mon_setperm ["setperm", a1, "clear", a3] pt =
      some (.done (bitsOf pte) (bitsOf (pte &&& (mask32 ^^^ perm)))
        (writePte pt (strtol a1) (pte &&& (mask32 ^^^ perm)))) := by
  simp [mon_setperm, hw, hl]

lemma mon_setperm_change_eq (pt : PageTable) (a1 a3 : String) (pte : Nat)
    (hw : walk pt (strtol a1) = some pte) :
    mon_setperm ["setperm", a1, "change", a3] pt =
      some (.done (bitsOf pte) (bitsOf (pte ||| toU32 (strtol a3)))
        (writePte pt (strtol a1) (pte ||| toU32 (strtol a3)))) := by
  simp [mon_setperm, hw]

lemma letterPerm_lt {s : String} {perm : Nat} (hl : letterPerm s = some perm) :
    perm < 2 ^ 32 := by
  unfold letterPerm at hl
  split at hl <;>
    simp only [Option.some.injEq, reduceCtorEq] at hl <;>
    subst hl <;> norm_num [PTE_P, PTE_W, PTE_U]

/-! ## Concrete page tables used as witnesses -/

/-- A page table with no mapping anywhere. -/
def emptyPt : PageTable := fun _ => none

/-- A page table whose page 0 entry is `3` (present and writable). -/
def pt3 : PageTable := fun pg => if pg = 0 then some 3 else none

/-- A page table whose page 0 entry is `1` (present, non-writable,
non-user). -/
def ptPresent : PageTable := fun pg => if pg = 0 then some 1 else none

/-- A page table whose page 1 (addresses `0x1000`–`0x1fff`) entry is `5`. -/
def ptC6 : PageTable := fun pg => if pg = 1 then some 5 else none

/-! ## Claims about `mon_setperm` -/

/-- C1: the claim states that a `setperm` invocation with four arguments
whose address has no mapping reports an explicit error, does not
dereference the null entry, and leaves the page tables unchanged.  The
code has no null check: after the non-creating walk returns the null
reference it immediately reads `*p` for the "Before:" report.  The
embedding marks that dereference as `none` (undefined behavior): on
`setperm 0x1000 set W` over a table with no mappings, `mon_setperm`
reaches the null dereference instead of reporting an error. -/
theorem setperm_missing_mapping_faults :
    mon_setperm ["setperm", "0x1000", "set", "W"] emptyPt = none := rfl

/-- C2 (counterexample): on a mapped page whose entry already has the
writable bit (entry `3` at address `0`), `setperm 0 set W` followed by
`setperm 0 clear W` leaves the entry at `1`, not the original `3`:
"set" then "clear" does not restore the original bits when the bit was
set beforehand. -/
theorem setperm_set_clear_cex :
    walk pt3 (strtol "0") = some 3 ∧
    ((mon_setperm ["setperm", "0", "set", "W"] pt3).bind fun r1 =>
      (mon_setperm ["setperm", "0", "clear", "W"] (SetpermResult.pt r1)).map fun r2 =>
        walk (SetpermResult.pt r2) (strtol "0")) = some (some 1) ∧
    (1 : Nat) ≠ 3 := by
  refine ⟨by decide, by decide, by decide⟩

/-- C2 (amended): for every address whose page is mapped and every
permission letter among P, W, U, if the selected bit is clear in the
entry beforehand, then `setperm set` followed by `setperm clear` on the
same bit and address leaves the page-table entry with exactly the bits it
had before the two operations. -/
theorem setperm_set_then_clear_restores (pt : PageTable) (a1 a3 : String) (pte perm : Nat)
    (hw : walk pt (strtol a1) = some pte) (h32 : pte < 2 ^ 32)
    (hl : letterPerm a3 = some perm) (hdisj : pte &&& perm = 0) :
    ((mon_setperm ["setperm", a1, "set", a3] pt).bind fun r1 =>
      (mon_setperm ["setperm", a1, "clear", a3] (SetpermResult.pt r1)).map fun r2 =>
        walk (SetpermResult.pt r2) (strtol a1)) = some (some pte) := by
  have hp32 : perm < 2 ^ 32 := letterPerm_lt hl
  have hor : pte ||| perm < 2 ^ 32 := Nat.or_lt_two_pow h32 hp32
  rw [mon_setperm_set_eq pt a1 a3 pte perm hw hl]
  have hw2 : walk (writePte pt (strtol a1) (pte ||| perm)) (strtol a1) =
      some (pte ||| perm) := by
    rw [walk_writePte, Nat.mod_eq_of_lt (by omega)]
  simp only [Option.some_bind, SetpermResult.pt]
  rw [mon_setperm_clear_eq _ a1 a3 _ perm hw2 hl]
  simp only [Option.map_some', SetpermResult.pt, walk_writePte]
  rw [set_clear_cancel h32 hp32 hdisj, Nat.mod_eq_of_lt (by omega)]

/-- Witness for the amended C2 theorem at entry `1`, address `0`,
letter `W`. -/
theorem setperm_set_then_clear_restores_witness :
    ((mon_setperm ["setperm", "0", "set", "W"] ptPresent).bind fun r1 =>
      (mon_setperm ["setperm", "0", "clear", "W"] (SetpermResult.pt r1)).map fun r2 =>
        walk (SetpermResult.pt r2) (strtol "0")) = some (some 1) :=
  setperm_set_then_clear_restores ptPresent "0" "W" 1 PTE_W
    (by decide) (by decide) rfl (by decide)

/-- C5: `setperm ADDR set W` on a present, non-writable mapping reports
the writable bit as 0 before and 1 after the mutation, and the present
and user bits of the entry are unchanged by the operation. -/
theorem setperm_set_W_reports (pt : PageTable) (a1 : String) (pte : Nat)
    (hw : walk pt (strtol a1) = some pte)
    (_hP : pte &&& PTE_P ≠ 0) (hW : pte &&& PTE_W = 0) :
    (mon_setperm ["setperm", a1, "set", "W"] pt).map SetpermResult.reports =
      some (some (bitsOf pte, bitsOf (pte ||| PTE_W))) ∧
    (bitsOf pte).w = false ∧
    (bitsOf (pte ||| PTE_W)).w = true ∧
    (bitsOf (pte ||| PTE_W)).p = (bitsOf pte).p ∧
    (bitsOf (pte ||| PTE_W)).u = (bitsOf pte).u := by
  have hl : letterPerm "W" = some PTE_W := rfl
  refine ⟨?_, ?_, ?_, ?_, ?_⟩
  · rw [mon_setperm_set_eq pt a1 "W" pte PTE_W hw hl]
    rfl
  · simp [bitsOf, hW]
  · have h : (pte ||| PTE_W) &&& PTE_W = PTE_W := by
      rw [land_or_distrib, hW]
      decide
    simp only [bitsOf, h]
    decide
  · have h : (pte ||| PTE_W) &&& PTE_P = pte &&& PTE_P := by
      rw [land_or_distrib]
      have hz : PTE_W &&& PTE_P = 0 := by decide
      rw [hz]
      simp
    simp only [bitsOf, h]
  · have h : (pte ||| PTE_W) &&& PTE_U = pte &&& PTE_U := by
      rw [land_or_distrib]
      have hz : PTE_W &&& PTE_U = 0 := by decide
      rw [hz]
      simp
    simp only [bitsOf, h]

/-- Witness for C5 at entry `1` (present, non-writable), address `0`. -/
theorem setperm_set_W_reports_witness :
    (mon_setperm ["setperm", "0", "set", "W"] ptPresent).map SetpermResult.reports =
      some (some (bitsOf 1, bitsOf (1 ||| PTE_W))) ∧
    (bitsOf 1).w = false ∧
    (bitsOf (1 ||| PTE_W)).w = true ∧
    (bitsOf (1 ||| PTE_W)).p = (bitsOf 1).p ∧
    (bitsOf (1 ||| PTE_W)).u = (bitsOf 1).u :=
  setperm_set_W_reports ptPresent "0" 1 (by decide) (by decide) (by decide)

/-- C6: for a mapped address and any raw numeric mask, `setperm ADDR
change MASK` stores the bitwise OR of the old entry with the 32-bit
pattern of the mask, so every bit set before remains set afterwards. -/
theorem setperm_change_only_adds_bits (pt : PageTable) (a1 a3 : String) (pte : Nat)
    (hw : walk pt (strtol a1) = some pte) (h32 : pte < 2 ^ 32) :
    (mon_setperm ["setperm", a1, "change", a3] pt).map
        (fun r => walk (SetpermResult.pt r) (strtol a1)) =
      some (some (pte ||| toU32 (strtol a3))) ∧
    ∀ i, pte.testBit i = true → (pte ||| toU32 (strtol a3)).testBit i = true := by
  constructor
  · rw [mon_setperm_change_eq pt a1 a3 pte hw]
    simp only [Option.map_some', SetpermResult.pt, walk_writePte]
    have h : pte ||| toU32 (strtol a3) < 2 ^ 32 :=
      Nat.or_lt_two_pow h32 (pow32 ▸ toU32_lt (strtol a3))
    rw [pow32] at h
    rw [Nat.mod_eq_of_lt h]
  · intro i h
    simp [Nat.testBit_or, h]

/-- Witness for C6 at entry `5`, address `0x1000`, mask `0x8`. -/
theorem setperm_change_only_adds_bits_witness :
    (mon_setperm ["setperm", "0x1000", "change", "0x8"] ptC6).map
        (fun r => walk (SetpermResult.pt r) (strtol "0x1000")) =
      some (some (5 ||| toU32 (strtol "0x8"))) ∧
    (5 ||| toU32 (strtol "0x8")).testBit 0 = true := by
  have h := setperm_change_only_adds_bits ptC6 "0x1000" "0x8" 5 (by decide) (by decide)
  exact ⟨h.1, h.2 0 (by decide)⟩

/-! ## Claim about the `mon_showmappings` range normalization -/

/-- C4: for all (one or two) parsed address arguments, the normalized
range of `mon_showmappings` — clamp both to `0xffffffff`, treat a single
address as a one-element range (both bounds equal), swap when end <
begin, round begin down and end up to the page size, extend end by one
page when the rounded bounds coincide — satisfies begin ≤ end, both
bounds page-aligned, and end − begin at least one page. -/
theorem showmappings_normalized_range (a b : Int) :
    (normalizeRange a b).1 ≤ (normalizeRange a b).2 ∧
    (normalizeRange a b).1 % (PGSIZE : Int) = 0 ∧
    (normalizeRange a b).2 % (PGSIZE : Int) = 0 ∧
    (PGSIZE : Int) ≤ (normalizeRange a b).2 - (normalizeRange a b).1 := by
  simp only [normalizeRange, ROUNDDOWN, ROUNDUP, PGSIZE]
  split_ifs <;> omega

/-! ## Claim about `mon_continue` / `mon_stepi` -/

/-- C7: invoking `continue` or `stepi` (exactly one token) with no saved
context present reports "Not in backtrace", leaves the active task — its
saved execution context and flags — unchanged, does not hand control to
the scheduler, and returns status 0 to the REPL loop. -/
theorem continue_stepi_no_context (env : Env) :
    mon_continue 1 none env = ⟨["Not in backtrace"], env, false, 0⟩ ∧
    mon_stepi 1 none env = ⟨["Not in backtrace"], env, false, 0⟩ := by
  constructor <;> rfl

/-! ## Claims about the tokenizer and dispatcher -/

/-- C8: an input line with more whitespace-separated tokens than the
maximum argument count (`MAXARGS - 1` storable arguments) makes `runcmd`
report "Too many arguments" and return 0, aborting the parse: no command
handler is invoked for that line. -/
theorem runcmd_too_many_args (buf : String)
    (h : (tokenize buf.toList).length > MAXARGS - 1) :
    runcmd buf = .tooMany ∧
    (∀ name argv, runcmd buf ≠ .invoke name argv) ∧
    runcmdReturn (runcmd buf) = some 0 := by
  have he : runcmd buf = .tooMany := by
    have hcond : ((tokenize buf.toList).length > MAXARGS - 1) = True := eq_true h
    unfold runcmd
    simp only [hcond, if_true]
  refine ⟨he, ?_, ?_⟩
  · intro name argv
    rw [he]
    exact fun hcon => Outcome.noConfusion hcon
  · rw [he]
    rfl

/-- Witness for C8 on a line of 16 one-letter tokens. -/
theorem runcmd_too_many_args_witness :
    runcmd "a b c d e f g h i j k l m n o p" = .tooMany ∧
    runcmdReturn (runcmd "a b c d e f g h i j k l m n o p") = some 0 :=
  ⟨(runcmd_too_many_args _ (by decide)).1, (runcmd_too_many_args _ (by decide)).2.2⟩

/-- C9: a non-empty line (within the argument bound) whose first token is
not a registered command name under exact, case-sensitive comparison
makes `runcmd` report "Unknown command" and return 0, a non-terminating
status, so the REPL loop continues. -/
theorem runcmd_unknown_command (buf : String) (t : List Char) (rest : List (List Char))
    (htoks : tokenize buf.toList = t :: rest)
    (hlen : (tokenize buf.toList).length ≤ MAXARGS - 1)
    (hmiss : String.mk t ∉ commandNames) :
    runcmd buf = .unknown (String.mk t) ∧
    runcmdReturn (runcmd buf) = some 0 ∧
    loopTerminates 0 = false := by
  have hnot : ¬ (tokenize buf.toList).length > MAXARGS - 1 := by
    simp only [MAXARGS] at hlen ⊢
    omega
  have he : runcmd buf = .unknown (String.mk t) := by
    unfold runcmd
    rw [htoks] at hnot
    simp only [htoks]
    rw [if_neg hnot]
    simp [hmiss]
  exact ⟨he, by rw [he]; rfl, rfl⟩

/-- Witness for C9 on the line "HELP" (a case-sensitive miss of the
registered "help"). -/
theorem runcmd_unknown_command_witness :
    runcmd "HELP" = .unknown "HELP" ∧
    runcmdReturn (runcmd "HELP") = some 0 ∧
    loopTerminates 0 = false :=
  runcmd_unknown_command "HELP" ['H', 'E', 'L', 'P'] [] (by decide) (by decide) (by decide)

/-! ## Claim about `mon_setcolor` -/

/-- C10: with exactly two tokens, `setcolor` stores the parsed integer
argument with bits 0 and 4 cleared (ANDed with the complement of `0x11`,
i.e. `0xFFFFFFEE` over 32 bits) into the global color and both bits are
clear afterwards; with any other argument count it prints usage and the
color is unchanged. -/
theorem setcolor_sets_masked_color (s : String) (argv : List String) (color : Nat)
    (h : argv.length ≠ 2) :
    mon_setcolor ["setcolor", s] color =
      (.setTo (toU32 (strtol s) &&& 0xFFFFFFEE), toU32 (strtol s) &&& 0xFFFFFFEE) ∧
    (toU32 (strtol s) &&& 0xFFFFFFEE).testBit 0 = false ∧
    (toU32 (strtol s) &&& 0xFFFFFFEE).testBit 4 = false ∧
    mon_setcolor argv color = (.usage, color) := by
  refine ⟨rfl, ?_, ?_, ?_⟩
  · have hb : (0xFFFFFFEE : Nat).testBit 0 = false := by decide
    simp [Nat.testBit_and, hb]
  · have hb : (0xFFFFFFEE : Nat).testBit 4 = false := by decide
    simp [Nat.testBit_and, hb]
  · rcases argv with _ | ⟨a, _ | ⟨b, _ | ⟨c, l⟩⟩⟩
    · rfl
    · rfl
    · exact absurd rfl h
    · rfl

/-- Witness for C10 at argument `0x57` and color 7, and at the
one-token invocation. -/
theorem setcolor_sets_masked_color_witness :
    mon_setcolor ["setcolor", "0x57"] 7 =
      (.setTo (toU32 (strtol "0x57") &&& 0xFFFFFFEE), toU32 (strtol "0x57") &&& 0xFFFFFFEE) ∧
    (toU32 (strtol "0x57") &&& 0xFFFFFFEE).testBit 0 = false ∧
    (toU32 (strtol "0x57") &&& 0xFFFFFFEE).testBit 4 = false ∧
    mon_setcolor ["setcolor"] 7 = (.usage, 7) :=
  setcolor_sets_masked_color "0x57" ["setcolor"] 7 (by decide)

/-! ## Claims about `mon_showmem` -/

lemma showmemLoop_closed (sel : String) (mem : Nat → Nat) (addr vaddr n : Int) :
    ∀ (fuel : Nat) (i : Int), fuel = ((n - i).toNat + 3) / 4 →
      showmemLoop sel mem addr vaddr n fuel i =
        (List.range fuel).map (fun (k : Nat) =>
          (sel, addr + i + 4 * (k : Int), mem (toU32 (vaddr + i + 4 * (k : Int))))) := by
  intro fuel
  induction fuel with
  | zero =>
    intro i hf
    simp [showmemLoop]
  | succ fuel ih =>
    intro i hf
    have hin : i < n := by omega
    rw [showmemLoop, if_pos hin]
    have hf2 : fuel = ((n - (i + 4)).toNat + 3) / 4 := by omega
    rw [ih (i + 4) hf2]
    rw [List.range_succ_eq_map, List.map_cons, List.map_map]
    refine congrArg₂ List.cons ?_ ?_
    · norm_num
    · apply List.map_congr_left
      intro k _
      have h1 : addr + (i + 4) + 4 * (k : Int) = addr + i + 4 * ((k : Int) + 1) := by ring
      have h2 : vaddr + (i + 4) + 4 * (k : Int) = vaddr + i + 4 * ((k : Int) + 1) := by ring
      simp only [Function.comp, h1, h2, Nat.succ_eq_add_one, Nat.cast_add, Nat.cast_one]

/-- C3 (counterexample): on `showmem Physical 0x1004 4` over identity
memory, the reported word is read from `KADDR(PTE_ADDR(0x1004)) =
0xF0001000` — the low 12 bits of the base are cleared before the fixed
offset is added — and differs from the claim's predicted read at the
fixed-offset translation of base plus offset 0, `0xF0001004`. -/
theorem showmem_physical_unaligned_cex :
    mon_showmem ["showmem", "Physical", "0x1004", "4"] (fun a => a) =
      .lines [("Physical", 0x1004, 0xF0001000)] ∧
    (0xF0001000 : Nat) ≠
      (fun (a : Nat) => a) (toU32 ((strtol "0x1004") + (KERNBASE : Int) + 0)) := by
  constructor
  · decide
  · decide

/-- C3 (amended): the Physical selector first clears the low 12 bits of
the base (frame extraction) and then adds the kernel's fixed
physical-to-virtual offset; the word for offset `4k` is read from that
translated frame base plus `4k`, while the Virtual selector reads from
base plus `4k` directly; every line is labeled with the original
untranslated base plus `4k` and the selector used, one 4-byte word every
4 bytes across the requested count. -/
theorem showmem_reads_and_labels (aStr nStr : String) (mem : Nat → Nat) :
    mon_showmem ["showmem", "Physical", aStr, nStr] mem =
      .lines ((List.range (((toI32 (strtol nStr)).toNat + 3) / 4)).map fun (k : Nat) =>
        ("Physical", strtol aStr + 4 * (k : Int),
          mem (toU32 ((KADDR (PTE_ADDR (strtol aStr)) : Int) + 4 * (k : Int))))) ∧
    mon_showmem ["showmem", "Virtual", aStr, nStr] mem =
      .lines ((List.range (((toI32 (strtol nStr)).toNat + 3) / 4)).map fun (k : Nat) =>
        ("Virtual", strtol aStr + 4 * (k : Int),
          mem (toU32 (strtol aStr + 4 * (k : Int))))) := by
  constructor
  · unfold mon_showmem
    have hc : firstCharIs "Physical" 'V' = false := rfl
    simp only [hc, Bool.false_eq_true, if_false]
    rw [showmemLoop_closed "Physical" mem (strtol aStr)
      ((KADDR (PTE_ADDR (strtol aStr)) : Nat) : Int) (toI32 (strtol nStr))
      (((toI32 (strtol nStr)).toNat + 3) / 4) 0 (by omega)]
    simp
  · unfold mon_showmem
    have hc : firstCharIs "Virtual" 'V' = true := rfl
    simp only [hc, if_true]
    rw [showmemLoop_closed "Virtual" mem (strtol aStr) (strtol aStr) (toI32 (strtol nStr))
      (((toI32 (strtol nStr)).toNat + 3) / 4) 0 (by omega)]
    simp

end Monitor
